import Mathlib

/-!
Verification of the goodtxt repository (multi-AI novel generation system)
against its natural-language specification.

The frontend TypeScript sources under `src/frontend` and `src/goodtxt/frontend`
are embedded directly.  The backend orchestrator (quality gate, task
scheduler, chapter state machine, project orchestrator) is not present in the
source tree — only its frontend callers and deployment scripts are — so those
components are modelled from the specification text, as marked in their doc
comments.
-/

namespace GoodTxt

/-! ## Project status (src/frontend/src/types/index.ts, NovelProject.status;
    src/goodtxt/frontend/src/pages/ProjectManager.tsx, Project.status)

    Both files declare the union type
    `'draft' | 'generating' | 'completed' | 'archived'`. -/

inductive ProjectStatus where
  | draft
  | generating
  | completed
  | archived
deriving DecidableEq, BEq, Repr

/-- The string literal of each member of the union type. -/
def ProjectStatus.toStr : ProjectStatus → String
  | .draft => "draft"
  | .generating => "generating"
  | .completed => "completed"
  | .archived => "archived"

/-- Parse a string into the union type
    `'draft' | 'generating' | 'completed' | 'archived'`;
    strings outside the union are not representable. -/
def ProjectStatus.ofStr (s : String) : Option ProjectStatus :=
  if s = "draft" then some .draft
  else if s = "generating" then some .generating
  else if s = "completed" then some .completed
  else if s = "archived" then some .archived
  else none

/-! ## Chapter status

    `src/frontend/src/types/index.ts` (Chapter.status):
    `'pending' | 'generating' | 'completed' | 'reviewing'`.

    `src/goodtxt/frontend/src/pages/NovelEditor.tsx` and
    `src/frontend/src/pages/NovelEditor.tsx` (local Chapter.status):
    `'generating' | 'completed' | 'editing' | 'reviewing'`. -/

inductive ChapterStatus where
  | pending
  | generating
  | completed
  | reviewing
deriving DecidableEq, BEq, Repr

def ChapterStatus.toStr : ChapterStatus → String
  | .pending => "pending"
  | .generating => "generating"
  | .completed => "completed"
  | .reviewing => "reviewing"

def ChapterStatus.ofStr (s : String) : Option ChapterStatus :=
  if s = "pending" then some .pending
  else if s = "generating" then some .generating
  else if s = "completed" then some .completed
  else if s = "reviewing" then some .reviewing
  else none

/-- The editor pages' local chapter status union
    `'generating' | 'completed' | 'editing' | 'reviewing'`. -/
inductive EditorChapterStatus where
  | generating
  | completed
  | editing
  | reviewing
deriving DecidableEq, BEq, Repr

def EditorChapterStatus.toStr : EditorChapterStatus → String
  | .generating => "generating"
  | .completed => "completed"
  | .editing => "editing"
  | .reviewing => "reviewing"

def EditorChapterStatus.ofStr (s : String) : Option EditorChapterStatus :=
  if s = "generating" then some .generating
  else if s = "completed" then some .completed
  else if s = "editing" then some .editing
  else if s = "reviewing" then some .reviewing
  else none

/-! ## ProjectManager dashboard statistics
    (src/goodtxt/frontend/src/pages/ProjectManager.tsx, lines 25–39 and
    104–110) -/

/-- The `Project` interface of ProjectManager.tsx (dates kept as abstract
    tick counts; JS numbers as rationals). -/
structure Project where
  id : String
  title : String
  description : Option String
  genre : String
  status : ProjectStatus
  progress : ℚ
  wordCount : ℚ
  targetWords : ℚ
  createdAt : ℕ
  updatedAt : ℕ
  aiAgents : List String
  chapters : ℚ
  quality : ℚ

/-- JavaScript `Math.round`: round half toward positive infinity. -/
def mathRound (x : ℚ) : ℤ := ⌊x + 1/2⌋

/-- Shape of the `stats` object computed in ProjectManager.tsx. -/
structure DashboardStats where
  total : ℕ
  generating : ℕ
  completed : ℕ
  averageQuality : ℤ

/-- Embedding of ProjectManager.tsx lines 104–110:
```
const stats = {
  total: projects.length,
  generating: projects.filter(p => p.status === 'generating').length,
  completed: projects.filter(p => p.status === 'completed').length,
  averageQuality: projects.length > 0 ?
    Math.round(projects.reduce((acc, p) => acc + p.quality, 0) / projects.length) : 0
};
``` -/
def stats (projects : List Project) : DashboardStats :=
  { total := projects.length
    generating := (projects.filter (fun p => p.status == ProjectStatus.generating)).length
    completed := (projects.filter (fun p => p.status == ProjectStatus.completed)).length
    averageQuality :=
      if projects.length > 0 then
        mathRound ((projects.foldl (fun acc p => acc + p.quality) 0) / (projects.length : ℚ))
      else 0 }

/-! ## NovelEditor.handleGenerate
    (src/frontend/src/pages/NovelEditor.tsx, lines 120–150) -/

/-- The `novelConfig` state of NovelEditor.tsx (lines 45–52). -/
structure NovelConfig where
  title : String
  genre : String
  length : String
  theme : String
  target_audience : String
  description : String

/-- Initial value of `novelConfig` (NovelEditor.tsx lines 45–52). -/
def initialNovelConfig : NovelConfig :=
  { title := "", genre := "romance", length := "medium", theme := ""
    target_audience := "adult", description := "" }

/-- The slice of the editor's `project` state that `handleGenerate` reads. -/
structure EditorProject where
  id : String

/-- Observable outcome of one `handleGenerate` call: either `setError` is
    called and the function returns without starting generation, or
    `projectAPI.startGeneration(project.id, 3)` is issued. -/
inductive GenerateOutcome where
  | validationError (message : String)
  | startGeneration (projectId : String) (chapterCount : ℕ)
deriving DecidableEq, Repr

/-- Embedding of `handleGenerate` (NovelEditor.tsx lines 120–150) up to the
    point where the generation request is issued:
```
if (!project) { setError('请先创建项目'); return; }
if (!novelConfig.title || !novelConfig.theme) {
  setError('请填写项目标题和主题'); return; }
... await projectAPI.startGeneration(project.id, 3);
```
    JS string falsiness: `!s` is true exactly when `s` is the empty string. -/
def handleGenerate (project : Option EditorProject) (novelConfig : NovelConfig) :
    GenerateOutcome :=
  match project with
  | none => .validationError "请先创建项目"
  | some p =>
    if novelConfig.title = "" ∨ novelConfig.theme = "" then
      .validationError "请填写项目标题和主题"
    else
      .startGeneration p.id 3

/-- Whether an outcome issues a `startGeneration` request. -/
def GenerateOutcome.issuesRequest : GenerateOutcome → Bool
  | .startGeneration _ _ => true
  | .validationError _ => false

/-- Whether an outcome sets a validation error. -/
def GenerateOutcome.isError : GenerateOutcome → Bool
  | .startGeneration _ _ => false
  | .validationError _ => true

/-! ## Axios response interceptor
    (src/goodtxt/frontend/src/contexts/AuthContext.tsx, services layer,
    lines 165–176) -/

/-- Browser `localStorage`, as an association list of key/value pairs. -/
def LocalStorage := List (String × String)

/-- Browser operation `localStorage.getItem(key)`. -/
def LocalStorage.getItem (s : LocalStorage) (key : String) : Option String :=
  (List.find? (fun kv => kv.fst == key) s).map (fun kv => kv.snd)

/-- Browser operation `localStorage.removeItem(key)`. -/
def LocalStorage.removeItem (s : LocalStorage) (key : String) : LocalStorage :=
  List.filter (fun kv => !(kv.fst == key)) s

/-- An axios error as the interceptor sees it: `error.response?.status` is
    absent for network errors, present for HTTP response errors. -/
structure AxiosError where
  status : Option ℕ

/-- Result of the response-error interceptor: the possibly-updated local
    storage, the navigation target assigned to `window.location.href` (if
    any), and the rejected (rethrown) error. -/
structure InterceptResult where
  storage : LocalStorage
  redirect : Option String
  rethrown : AxiosError

/-- Embedding of the response interceptor (AuthContext.tsx services layer,
    lines 165–176):
```
(error) => {
  if (error.response?.status === 401) {
    localStorage.removeItem('auth_token');
    localStorage.removeItem('user');
    window.location.href = '/login';
  }
  return Promise.reject(error);
}
``` -/
def responseInterceptor (error : AxiosError) (storage : LocalStorage) :
    InterceptResult :=
  if error.status = some 401 then
    { storage := (storage.removeItem "auth_token").removeItem "user"
      redirect := some "/login"
      rethrown := error }
  else
    { storage := storage, redirect := none, rethrown := error }

/-! ## WebSocketManager reconnection
    (src/goodtxt/frontend/src/contexts/AuthContext.tsx, services layer,
    lines 531–577) -/

/-- The reconnection-relevant state of `WebSocketManager`. -/
structure WSManager where
  reconnectAttempts : ℕ
  maxReconnectAttempts : ℕ
  reconnectDelay : ℕ
deriving DecidableEq, Repr

/-- Field initializers of `WebSocketManager`:
    `reconnectAttempts = 0`, `maxReconnectAttempts = 5`,
    `reconnectDelay = 1000`. -/
def WSManager.init : WSManager :=
  { reconnectAttempts := 0, maxReconnectAttempts := 5, reconnectDelay := 1000 }

/-- Embedding of `attemptReconnect` (lines 567–577): when the attempt counter
    is below the maximum it is incremented and a reconnection is scheduled
    after `min(reconnectDelay * reconnectAttempts, 30000)` ms (computed after
    the increment); otherwise nothing is scheduled.
```
if (this.reconnectAttempts < this.maxReconnectAttempts) {
  this.reconnectAttempts++;
  const delay = Math.min(this.reconnectDelay * this.reconnectAttempts, 30000);
  setTimeout(() => { ... this.connect(); }, delay);
}
``` -/
def WSManager.attemptReconnect (m : WSManager) : Option (ℕ × WSManager) :=
  if m.reconnectAttempts < m.maxReconnectAttempts then
    let m2 : WSManager := { m with reconnectAttempts := m.reconnectAttempts + 1 }
    some (min (m.reconnectDelay * m2.reconnectAttempts) 30000, m2)
  else
    none

/-- The `onopen` handler (lines 543–546): resets the attempt counter to 0. -/
def WSManager.onOpen (m : WSManager) : WSManager :=
  { m with reconnectAttempts := 0 }

/-- Events that touch the reconnection state: a socket close (running
    `attemptReconnect`) or a successful open (resetting the counter). -/
inductive WSEvent where
  | close
  | opened
deriving DecidableEq, Repr

/-- One event step on the manager state. -/
def WSManager.step (m : WSManager) : WSEvent → WSManager
  | .close =>
    match m.attemptReconnect with
    | some (_, m2) => m2
    | none => m
  | .opened => m.onOpen

/-- The manager state after a sequence of socket events, from construction. -/
def WSManager.run (events : List WSEvent) : WSManager :=
  events.foldl WSManager.step WSManager.init

/-! ## Quality gate (backend) -/

/-- Modelled from the spec: the backend `QualityVerdict` value (§3) — the
    backend orchestrator sources are not in the tree, only their frontend
    callers.  Numeric score per criterion (coherence, grammar, creativity,
    consistency) and an aggregate score. -/
structure QualityVerdict where
  coherence : ℚ
  grammar : ℚ
  creativity : ℚ
  consistency : ℚ
  aggregate : ℚ

/-- Modelled from the spec: the threshold policy of §4.2 — "Policy = minimum
    aggregate score plus optional per-criterion floors." -/
structure ThresholdPolicy where
  minAggregate : ℚ
  coherenceFloor : Option ℚ
  grammarFloor : Option ℚ
  creativityFloor : Option ℚ
  consistencyFloor : Option ℚ

/-- Modelled from the spec: the three gate decisions of §4.2. -/
inductive GateDecision where
  | accept
  | regenerate
  | escalate
deriving DecidableEq, Repr

/-- A score violates an optional absolute floor when the floor is configured
    and the score falls below it. -/
def belowFloor (score : ℚ) (floor : Option ℚ) : Bool :=
  match floor with
  | none => false
  | some f => decide (score < f)

/-- Whether any individual criterion falls below its configured floor. -/
def anyCriterionBelowFloor (v : QualityVerdict) (p : ThresholdPolicy) : Bool :=
  belowFloor v.coherence p.coherenceFloor ||
  belowFloor v.grammar p.grammarFloor ||
  belowFloor v.creativity p.creativityFloor ||
  belowFloor v.consistency p.consistencyFloor

/-- A verdict passes the policy when the aggregate meets the minimum
    threshold and no individual criterion falls below a configured floor
    (the tie-break rule of §4.2). -/
def passesPolicy (v : QualityVerdict) (p : ThresholdPolicy) : Bool :=
  decide (p.minAggregate ≤ v.aggregate) && !anyCriterionBelowFloor v p

/-- Modelled from the spec: the quality gate's pure function
    `decide(verdict, policy) -> {accept, regenerate, escalate}` (§4.2),
    with the current attempt count and configured maximum in context since
    "`escalate` is returned once the attempt count reaches the configured
    maximum".  A rejected verdict yields `regenerate` while attempts remain,
    `escalate` once the attempt count has reached the maximum. -/
def gateDecide (v : QualityVerdict) (p : ThresholdPolicy)
    (attempts maxRetries : ℕ) : GateDecision :=
  if passesPolicy v p then .accept
  else if maxRetries ≤ attempts then .escalate
  else .regenerate

/-! ## Task scheduler / isolation layer (backend) -/

/-- Modelled from the spec: the scheduler's admission state (§4.5) — "maintain
    a mapping from project id to job handle", here an association list from
    project id to job id, together with a fresh-job counter. -/
structure SchedulerState where
  active : List (String × ℕ)
  nextJobId : ℕ

/-- The scheduler before any request: no active jobs. -/
def SchedulerState.init : SchedulerState :=
  { active := [], nextJobId := 0 }

/-- Whether a project currently has an active GenerationJob. -/
def SchedulerState.isActive (s : SchedulerState) (projectId : String) : Bool :=
  s.active.any (fun e => e.fst == projectId)

/-- Outcome of a start request: a fresh job id, or the `AlreadyRunning`
    rejection. -/
inductive StartOutcome where
  | started (jobId : ℕ)
  | alreadyRunning
deriving DecidableEq, Repr

/-- Modelled from the spec: the `start` admission step (§4.5) — "a `start`
    request for a project with an existing active job is rejected with
    `AlreadyRunning`, not queued silently"; otherwise a fresh GenerationJob is
    registered for the project.  The admission map is guarded by
    exclusive-access discipline (§5), so concurrent `start` calls are
    linearized into a sequence of these atomic steps. -/
def SchedulerState.start (s : SchedulerState) (projectId : String) :
    StartOutcome × SchedulerState :=
  if s.isActive projectId then
    (.alreadyRunning, s)
  else
    (.started s.nextJobId,
     { active := (projectId, s.nextJobId) :: s.active
       nextJobId := s.nextJobId + 1 })

/-- Modelled from the spec: job completion/cancellation (§3) — the
    GenerationJob is "destroyed when the job finishes or is cancelled",
    removing the project's entry from the admission map. -/
def SchedulerState.finish (s : SchedulerState) (projectId : String) :
    SchedulerState :=
  { s with active := s.active.filter (fun e => !(e.fst == projectId)) }

/-- A scheduler request, as linearized by the lock around the admission map. -/
inductive SchedEvent where
  | start (projectId : String)
  | finish (projectId : String)

/-- One scheduler step (the returned `StartOutcome` is dropped; only the
    state evolution matters for the invariant). -/
def SchedulerState.step (s : SchedulerState) : SchedEvent → SchedulerState
  | .start pid => (s.start pid).snd
  | .finish pid => s.finish pid

/-- Scheduler state after a sequence of linearized requests. -/
def SchedulerState.run (events : List SchedEvent) : SchedulerState :=
  events.foldl SchedulerState.step SchedulerState.init

/-- Number of active jobs registered for one project. -/
def SchedulerState.activeCount (s : SchedulerState) (projectId : String) : ℕ :=
  (s.active.filter (fun e => e.fst == projectId)).length

/-! ## Chapter state machine (backend) -/

/-- Modelled from the spec: the per-chapter lifecycle states (§4.3) —
    `Pending → Generating → Evaluating → {Accepted | Regenerating →
    Generating | Failed}`, with `Accepted` and `Failed` terminal. -/
inductive ChapterMachineState where
  | pending
  | generating
  | evaluating
  | accepted
  | regenerating
  | failed
deriving DecidableEq, Repr

/-- Whether a machine state is terminal. -/
def ChapterMachineState.isTerminal : ChapterMachineState → Bool
  | .accepted => true
  | .failed => true
  | _ => false

/-- Modelled from the spec: the mutable per-chapter record the machine
    drives — state plus attempt count (ChapterResult, §3). -/
structure ChapterRecord where
  state : ChapterMachineState
  attempts : ℕ
deriving DecidableEq, Repr

/-- A chapter before generation starts. -/
def ChapterRecord.init : ChapterRecord :=
  { state := .pending, attempts := 0 }

/-- Orchestrator configuration relevant to the chapter machine: the quality
    policy and the configured max-retries. -/
structure ChapterConfig where
  policy : ThresholdPolicy
  maxRetries : ℕ

/-- Modelled from the spec: the stimuli that drive the chapter state machine
    (§4.3): generation start, a draft arriving for evaluation, an evaluation
    verdict (routed through the quality gate), a retry after a `regenerate`
    verdict, and a `FatalError` from the agent client. -/
inductive ChapterEvent where
  | startGen
  | draftReady
  | evaluated (v : QualityVerdict)
  | retry
  | fatalError

/-- Modelled from the spec: one transition of the chapter state machine
    (§4.3).  The first generation begins attempt 1;
    `Evaluating → Regenerating` occurs only on a gate `regenerate` verdict
    and increments the attempt count; transition to `Failed` occurs on gate
    `escalate` or on a `FatalError`; `Accepted` and `Failed` absorb all
    events; inapplicable events leave the record unchanged. -/
def chapterStep (cfg : ChapterConfig) (c : ChapterRecord) :
    ChapterEvent → ChapterRecord
  | .startGen =>
    match c.state with
    | .pending => { state := .generating, attempts := 1 }
    | _ => c
  | .draftReady =>
    match c.state with
    | .generating => { c with state := .evaluating }
    | _ => c
  | .evaluated v =>
    match c.state with
    | .evaluating =>
      match gateDecide v cfg.policy c.attempts cfg.maxRetries with
      | .accept => { c with state := .accepted }
      | .regenerate => { c with state := .regenerating, attempts := c.attempts + 1 }
      | .escalate => { c with state := .failed }
    | _ => c
  | .retry =>
    match c.state with
    | .regenerating => { c with state := .generating }
    | _ => c
  | .fatalError =>
    match c.state with
    | .generating => { c with state := .failed }
    | .evaluating => { c with state := .failed }
    | _ => c

/-- Chapter record after a sequence of machine events, from `init`. -/
def chapterRun (cfg : ChapterConfig) (events : List ChapterEvent) :
    ChapterRecord :=
  events.foldl (chapterStep cfg) ChapterRecord.init

/-! ## Project orchestrator (backend) -/

/-- Modelled from the spec: terminal outcome of running one chapter's state
    machine to completion (§4.4) — the chapter ends `Accepted` or `Failed`. -/
inductive ChapterOutcome where
  | accepted
  | failed
deriving DecidableEq, Repr

/-- Project-level terminal status of a generation run (§4.4). -/
inductive RunStatus where
  | completed
  | failed
deriving DecidableEq, Repr

/-- Trace of one generation run: the chapter indices whose generation was
    started, in order, and the resulting project status. -/
structure OrchTrace where
  started : List ℕ
  status : RunStatus
deriving DecidableEq, Repr

/-- Modelled from the spec: the sequential chapter loop of the project
    orchestrator (§4.4) — "for each ChapterPlan in order, … run the Chapter
    State Machine to a terminal state, … then advance.  If a chapter reaches
    `Failed`, the orchestrator marks the project `failed` and stops."
    `outcome i` is the terminal outcome chapter `i`'s machine reaches;
    `remaining` counts the chapters left, `i` is the next chapter index. -/
def orchLoop (outcome : ℕ → ChapterOutcome) :
    (remaining : ℕ) → (i : ℕ) → OrchTrace
  | 0, _ => { started := [], status := .completed }
  | remaining + 1, i =>
    match outcome i with
    | .accepted =>
      let rest := orchLoop outcome remaining (i + 1)
      { rest with started := i :: rest.started }
    | .failed => { started := [i], status := .failed }

/-- A full sequential-mode run over `total` planned chapters. -/
def orchRun (outcome : ℕ → ChapterOutcome) (total : ℕ) : OrchTrace :=
  orchLoop outcome total 0

/-! ## Concrete sample data used to exercise the embedded code -/

/-- A sample project as loaded into ProjectManager. -/
def sampleProjectA : Project :=
  { id := "p1", title := "星际征途", description := some "科幻小说", genre := "科幻"
    status := ProjectStatus.generating, progress := 40, wordCount := 20000
    targetWords := 50000, createdAt := 0, updatedAt := 1
    aiAgents := ["协调者", "作者", "编辑"], chapters := 4, quality := 81 }

/-- A second sample project. -/
def sampleProjectB : Project :=
  { id := "p2", title := "都市之光", description := none, genre := "现代"
    status := ProjectStatus.completed, progress := 100, wordCount := 52000
    targetWords := 50000, createdAt := 0, updatedAt := 2
    aiAgents := ["协调者", "作者"], chapters := 12, quality := 92 }

/-- A sample threshold policy: minimum aggregate 70%, grammar floor 60%. -/
def samplePolicy : ThresholdPolicy :=
  { minAggregate := 70, coherenceFloor := none, grammarFloor := some 60
    creativityFloor := none, consistencyFloor := none }

/-- A verdict whose aggregate meets the threshold while the grammar
    criterion scores 0. -/
def sampleBadVerdict : QualityVerdict :=
  { coherence := 95, grammar := 0, creativity := 90, consistency := 95
    aggregate := 80 }

/-- Chapter-machine configuration with the sample policy and max-retries 3. -/
def sampleChapterConfig : ChapterConfig :=
  { policy := samplePolicy, maxRetries := 3 }

/-- An event run that drives a chapter to `Evaluating` on its third and
    final attempt, every verdict rejected by the gate. -/
def sampleChapterEvents : List ChapterEvent :=
  [ .startGen, .draftReady, .evaluated sampleBadVerdict, .retry,
    .draftReady, .evaluated sampleBadVerdict, .retry, .draftReady ]

/-- A chapter-outcome assignment where chapter 1 fails and the rest would
    succeed. -/
def sampleOutcome : ℕ → ChapterOutcome :=
  fun n => if n = 1 then ChapterOutcome.failed else ChapterOutcome.accepted

/-- A sample browser storage with a live session. -/
def sampleStorage : LocalStorage :=
  [("auth_token", "tok-123"), ("user", "alice"), ("theme", "dark")]

/-! ## Theorems -/

/-- C5 counterexample: the claim asserts that a project's status ranges over
    five values including `failed`, but `"failed"` is not a member of the
    status union type `'draft' | 'generating' | 'completed' | 'archived'`
    declared in src/frontend/src/types/index.ts and in
    src/goodtxt/frontend/src/pages/ProjectManager.tsx. -/
theorem project_status_failed_not_representable :
    ProjectStatus.ofStr "failed" = none := by decide

/-- C5 (amended): a Project's overall status ranges over exactly the four
    values draft, generating, completed and archived; the `failed` status of
    the spec is not representable in the code's Project type. -/
theorem project_status_range :
    (∀ s : ProjectStatus,
      s.toStr = "draft" ∨ s.toStr = "generating" ∨
      s.toStr = "completed" ∨ s.toStr = "archived") ∧
    ProjectStatus.ofStr "draft" = some .draft ∧
    ProjectStatus.ofStr "generating" = some .generating ∧
    ProjectStatus.ofStr "completed" = some .completed ∧
    ProjectStatus.ofStr "archived" = some .archived ∧
    ProjectStatus.ofStr "failed" = none := by
  refine ⟨fun s => ?_, by decide, by decide, by decide, by decide, by decide⟩
  cases s <;> simp [ProjectStatus.toStr]

/-- C6 counterexample: the claim asserts that a chapter's status ranges over
    exactly Pending, Generating, Evaluating, Accepted, Regenerating and
    Failed, but neither chapter status union in the code contains
    `"accepted"`, `"evaluating"`, `"regenerating"` or `"failed"`, while both
    contain `"completed"` and `"reviewing"`, which the claimed set lacks. -/
theorem chapter_status_claim_mismatch :
    ChapterStatus.ofStr "accepted" = none ∧
    ChapterStatus.ofStr "evaluating" = none ∧
    ChapterStatus.ofStr "regenerating" = none ∧
    ChapterStatus.ofStr "failed" = none ∧
    ChapterStatus.ofStr "completed" = some .completed ∧
    EditorChapterStatus.ofStr "accepted" = none ∧
    EditorChapterStatus.ofStr "failed" = none := by decide

/-- C6 (amended): a chapter's status in the code ranges over exactly
    pending, generating, completed, reviewing (shared types) respectively
    generating, completed, editing, reviewing (editor pages); none of the
    spec's states Evaluating, Accepted, Regenerating, Failed is
    representable, and no transition relation over them exists in the
    frontend code. -/
theorem chapter_status_range :
    (∀ s : ChapterStatus,
      s.toStr = "pending" ∨ s.toStr = "generating" ∨
      s.toStr = "completed" ∨ s.toStr = "reviewing") ∧
    (∀ s : EditorChapterStatus,
      s.toStr = "generating" ∨ s.toStr = "completed" ∨
      s.toStr = "editing" ∨ s.toStr = "reviewing") ∧
    ChapterStatus.ofStr "evaluating" = none ∧
    ChapterStatus.ofStr "accepted" = none ∧
    ChapterStatus.ofStr "regenerating" = none ∧
    ChapterStatus.ofStr "failed" = none ∧
    EditorChapterStatus.ofStr "evaluating" = none ∧
    EditorChapterStatus.ofStr "accepted" = none ∧
    EditorChapterStatus.ofStr "regenerating" = none ∧
    EditorChapterStatus.ofStr "failed" = none := by
  refine ⟨fun s => ?_, fun s => ?_, by decide, by decide, by decide, by decide,
    by decide, by decide, by decide, by decide⟩
  · cases s <;> simp [ChapterStatus.toStr]
  · cases s <;> simp [EditorChapterStatus.toStr]

/-- C7: whenever the configured title or theme is the empty string,
    `handleGenerate` sets an error and returns without issuing a
    `startGeneration` request, for every project state. -/
theorem handleGenerate_validates_nonempty (project : Option EditorProject)
    (cfg : NovelConfig) (h : cfg.title = "" ∨ cfg.theme = "") :
    (handleGenerate project cfg).isError = true ∧
    (handleGenerate project cfg).issuesRequest = false := by
  cases project with
  | none => exact ⟨rfl, rfl⟩
  | some p =>
    have he : handleGenerate (some p) cfg
        = GenerateOutcome.validationError "请填写项目标题和主题" := by
      show (if cfg.title = "" ∨ cfg.theme = "" then
          GenerateOutcome.validationError "请填写项目标题和主题"
        else GenerateOutcome.startGeneration p.id 3)
        = GenerateOutcome.validationError "请填写项目标题和主题"
      exact if_pos h
    rw [he]
    exact ⟨rfl, rfl⟩

/-- C7 witness: with the initial (empty-title, empty-theme) configuration and
    a loaded project, no generation request is issued. -/
theorem handleGenerate_validates_nonempty_witness :
    (handleGenerate (some { id := "p1" }) initialNovelConfig).isError = true ∧
    (handleGenerate (some { id := "p1" }) initialNovelConfig).issuesRequest
      = false :=
  handleGenerate_validates_nonempty (some { id := "p1" }) initialNovelConfig
    (Or.inl rfl)

/-- Removing a key makes subsequent lookups of that key fail. -/
theorem LocalStorage.getItem_removeItem_self (s : LocalStorage) (k : String) :
    (s.removeItem k).getItem k = none := by
  unfold LocalStorage.getItem LocalStorage.removeItem
  rw [Option.map_eq_none', List.find?_eq_none]
  intro kv hkv
  have hne := (List.mem_filter.mp hkv).2
  simp only [Bool.not_eq_true'] at hne
  simp [hne]

/-- Removing some key preserves the absence of any key. -/
theorem LocalStorage.getItem_removeItem_of_none (s : LocalStorage)
    (k k2 : String) (h : s.getItem k = none) :
    (s.removeItem k2).getItem k = none := by
  unfold LocalStorage.getItem LocalStorage.removeItem
  unfold LocalStorage.getItem at h
  rw [Option.map_eq_none', List.find?_eq_none]
  rw [Option.map_eq_none', List.find?_eq_none] at h
  intro kv hkv
  exact h kv (List.mem_filter.mp hkv).1

/-- C10: on a response error with HTTP status 401 the interceptor clears the
    `auth_token` and `user` entries, redirects to `/login`, and rethrows the
    error; on every other error it leaves local storage untouched, performs
    no redirect, and only rethrows. -/
theorem responseInterceptor_behavior (e : AxiosError) (store : LocalStorage) :
    (e.status = some 401 →
      (responseInterceptor e store).storage.getItem "auth_token" = none ∧
      (responseInterceptor e store).storage.getItem "user" = none ∧
      (responseInterceptor e store).redirect = some "/login" ∧
      (responseInterceptor e store).rethrown = e) ∧
    (e.status ≠ some 401 →
      (responseInterceptor e store).storage = store ∧
      (responseInterceptor e store).redirect = none ∧
      (responseInterceptor e store).rethrown = e) := by
  constructor
  · intro h401
    unfold responseInterceptor
    rw [if_pos h401]
    refine ⟨?_, ?_, rfl, rfl⟩
    · exact LocalStorage.getItem_removeItem_of_none _ _ _
        (LocalStorage.getItem_removeItem_self store "auth_token")
    · exact LocalStorage.getItem_removeItem_self _ "user"
  · intro hother
    unfold responseInterceptor
    rw [if_neg hother]
    exact ⟨rfl, rfl, rfl⟩

/-- C10 witness: on a concrete 401 with a populated storage the session
    entries are gone and the redirect targets `/login`; on a concrete 500
    the storage is untouched. -/
theorem responseInterceptor_behavior_witness :
    ((responseInterceptor { status := some 401 } sampleStorage).storage.getItem
        "auth_token" = none ∧
      (responseInterceptor { status := some 401 } sampleStorage).storage.getItem
        "user" = none ∧
      (responseInterceptor { status := some 401 } sampleStorage).redirect
        = some "/login" ∧
      (responseInterceptor { status := some 401 } sampleStorage).rethrown
        = { status := some 401 }) ∧
    ((responseInterceptor { status := some 500 } sampleStorage).storage
        = sampleStorage ∧
      (responseInterceptor { status := some 500 } sampleStorage).redirect
        = none ∧
      (responseInterceptor { status := some 500 } sampleStorage).rethrown
        = { status := some 500 }) :=
  ⟨(responseInterceptor_behavior { status := some 401 } sampleStorage).1 rfl,
   (responseInterceptor_behavior { status := some 500 } sampleStorage).2
     (by simp)⟩

/-- Reconnection-state invariant: the configured limits are those of the
    constructor and the attempt counter never exceeds the maximum. -/
def WSInv (m : WSManager) : Prop :=
  m.maxReconnectAttempts = 5 ∧ m.reconnectDelay = 1000 ∧
  m.reconnectAttempts ≤ 5

/-- One socket event preserves the reconnection-state invariant. -/
theorem wsStep_preserves (m : WSManager) (e : WSEvent) (h : WSInv m) :
    WSInv (m.step e) := by
  obtain ⟨hmax, hdelay, hle⟩ := h
  cases e with
  | close =>
    by_cases hlt : m.reconnectAttempts < m.maxReconnectAttempts
    · simp only [WSManager.step, WSManager.attemptReconnect, if_pos hlt]
      refine ⟨hmax, hdelay, ?_⟩
      show m.reconnectAttempts + 1 ≤ 5
      rw [hmax] at hlt
      omega
    · simp only [WSManager.step, WSManager.attemptReconnect, if_neg hlt]
      exact ⟨hmax, hdelay, hle⟩
  | opened => exact ⟨hmax, hdelay, Nat.zero_le 5⟩

/-- The invariant holds in every state reachable from construction. -/
theorem wsRun_inv (events : List WSEvent) : WSInv (WSManager.run events) := by
  suffices hgen : ∀ (l : List WSEvent) (m : WSManager), WSInv m →
      WSInv (l.foldl WSManager.step m) by
    exact hgen events WSManager.init ⟨rfl, rfl, Nat.zero_le 5⟩
  intro l
  induction l with
  | nil => intro m h; exact h
  | cons e t ih => intro m h; exact ih (m.step e) (wsStep_preserves m e h)

/-- C8: in every reachable state of the WebSocket manager the reconnection
    counter is at most 5, and whenever `attemptReconnect` schedules a
    reconnection, the delay is `min(1000 * reconnectAttempts, 30000)`
    milliseconds (with the just-incremented counter, itself still ≤ 5). -/
theorem wsReconnect_bounded (events : List WSEvent) :
    (WSManager.run events).reconnectAttempts ≤ 5 ∧
    (∀ delay m2,
      (WSManager.run events).attemptReconnect = some (delay, m2) →
      delay = min (1000 * m2.reconnectAttempts) 30000 ∧
      m2.reconnectAttempts ≤ 5) := by
  obtain ⟨hmax, hdelay, hle⟩ := wsRun_inv events
  refine ⟨hle, fun delay m2 hsome => ?_⟩
  unfold WSManager.attemptReconnect at hsome
  rw [hmax, hdelay] at hsome
  by_cases hlt : (WSManager.run events).reconnectAttempts < 5
  · rw [if_pos hlt] at hsome
    simp only [Option.some_inj, Prod.mk.injEq] at hsome
    obtain ⟨hd, hm⟩ := hsome
    subst hm
    simp only
    constructor
    · omega
    · omega
  · rw [if_neg hlt] at hsome
    exact absurd hsome (by simp)

/-- C8 witness: after two closes the counter is 2 ≤ 5, and the third
    scheduled reconnection is delayed exactly min(1000·3, 30000) = 3000 ms. -/
theorem wsReconnect_bounded_witness :
    (WSManager.run [WSEvent.close, WSEvent.close]).reconnectAttempts ≤ 5 ∧
    ((3000 : ℕ) = min (1000 * (3 : ℕ)) 30000 ∧ (3 : ℕ) ≤ 5) :=
  ⟨(wsReconnect_bounded [WSEvent.close, WSEvent.close]).1,
   by
    have h := (wsReconnect_bounded [WSEvent.close, WSEvent.close]).2 3000
      { reconnectAttempts := 3, maxReconnectAttempts := 5,
        reconnectDelay := 1000 } (by decide)
    exact h⟩

/-- The quality accumulator of `stats` computes the sum of the projects'
    quality values. -/
theorem foldl_quality_sum (l : List Project) (a : ℚ) :
    l.foldl (fun acc p => acc + p.quality) a = a + (l.map Project.quality).sum := by
  induction l generalizing a with
  | nil => simp
  | cons p t ih => simp [ih, add_assoc]

/-- C9: the dashboard statistics satisfy: `total` is the number of loaded
    projects, `generating` and `completed` count the projects in those
    statuses, and `averageQuality` is 0 for an empty list and otherwise the
    rounded arithmetic mean of the quality values — the division is guarded
    by the emptiness check. -/
theorem stats_correct (projects : List Project) :
    (stats projects).total = projects.length ∧
    (stats projects).generating
      = projects.countP (fun p => p.status == ProjectStatus.generating) ∧
    (stats projects).completed
      = projects.countP (fun p => p.status == ProjectStatus.completed) ∧
    (projects = [] → (stats projects).averageQuality = 0) ∧
    (projects ≠ [] → (stats projects).averageQuality
      = mathRound ((projects.map Project.quality).sum / (projects.length : ℚ))) := by
  refine ⟨rfl, ?_, ?_, ?_, ?_⟩
  · rw [List.countP_eq_length_filter]; rfl
  · rw [List.countP_eq_length_filter]; rfl
  · intro h; subst h; rfl
  · intro h
    have hlen : 0 < projects.length := List.length_pos.mpr h
    simp only [stats]
    rw [if_pos hlen, foldl_quality_sum, zero_add]

/-- C9 witness: on a concrete two-project list the statistics take the
    predicted values; in particular the average quality is the rounded mean
    of 81 and 92. -/
theorem stats_correct_witness :
    (stats [sampleProjectA, sampleProjectB]).total = 2 ∧
    (stats [sampleProjectA, sampleProjectB]).generating = 1 ∧
    (stats [sampleProjectA, sampleProjectB]).completed = 1 ∧
    (stats [sampleProjectA, sampleProjectB]).averageQuality
      = mathRound (((81 : ℚ) + 92) / 2) := by
  have h := stats_correct [sampleProjectA, sampleProjectB]
  refine ⟨h.1, ?_, ?_, ?_⟩
  · rw [h.2.1]; decide
  · rw [h.2.2.1]; decide
  · rw [h.2.2.2.2 (by simp)]
    norm_num [sampleProjectA, sampleProjectB]

/-- C1: whenever the aggregate score meets the minimum threshold but some
    criterion falls below its configured absolute floor, the quality gate
    never accepts — it returns regenerate or escalate, for every attempt
    count and retry limit. -/
theorem gate_rejects_floor_violation (v : QualityVerdict) (p : ThresholdPolicy)
    (attempts maxRetries : ℕ)
    (hagg : p.minAggregate ≤ v.aggregate)
    (hfloor : anyCriterionBelowFloor v p = true) :
    gateDecide v p attempts maxRetries ≠ .accept ∧
    (gateDecide v p attempts maxRetries = .regenerate ∨
     gateDecide v p attempts maxRetries = .escalate) := by
  have hpass : passesPolicy v p = false := by
    unfold passesPolicy
    rw [hfloor]
    simp
  unfold gateDecide
  rw [hpass]
  by_cases hm : maxRetries ≤ attempts
  · simp [hm]
  · simp [hm]

/-- C1 witness: a verdict with aggregate 80 over threshold 70 but grammar 0
    under the 60 floor is not accepted (here: regenerated, attempts 1 of 3). -/
theorem gate_rejects_floor_violation_witness :
    gateDecide sampleBadVerdict samplePolicy 1 3 ≠ .accept ∧
    (gateDecide sampleBadVerdict samplePolicy 1 3 = .regenerate ∨
     gateDecide sampleBadVerdict samplePolicy 1 3 = .escalate) :=
  gate_rejects_floor_violation sampleBadVerdict samplePolicy 1 3
    (by decide) (by decide)

/-- Scheduler invariant: every project has at most one active job. -/
def SchedInv (s : SchedulerState) : Prop :=
  ∀ pid, s.activeCount pid ≤ 1

/-- A project with no active job has zero registered jobs. -/
theorem activeCount_eq_zero_of_not_isActive (s : SchedulerState) (pid : String)
    (h : s.isActive pid = false) : s.activeCount pid = 0 := by
  unfold SchedulerState.isActive at h
  unfold SchedulerState.activeCount
  rw [List.length_eq_zero, List.filter_eq_nil_iff]
  intro e he
  rw [List.any_eq_false] at h
  exact h e he

/-- One linearized scheduler request preserves the one-job-per-project
    invariant. -/
theorem schedStep_preserves (s : SchedulerState) (e : SchedEvent)
    (h : SchedInv s) : SchedInv (s.step e) := by
  cases e with
  | start pid' =>
    intro pid
    show ((s.start pid').snd).activeCount pid ≤ 1
    unfold SchedulerState.start
    by_cases hact : s.isActive pid' = true
    · rw [if_pos hact]
      exact h pid
    · rw [if_neg hact]
      unfold SchedulerState.activeCount
      rw [List.filter_cons]
      by_cases hpp : (pid' == pid) = true
      · simp only [hpp, if_true, List.length_cons]
        have h0 : s.activeCount pid = 0 := by
          refine activeCount_eq_zero_of_not_isActive s pid ?_
          rw [← eq_of_beq hpp]
          exact Bool.eq_false_iff.mpr hact
        unfold SchedulerState.activeCount at h0
        omega
      · simp only [Bool.not_eq_true] at hpp
        simp only [hpp, Bool.false_eq_true, if_false]
        exact h pid
  | finish pid' =>
    intro pid
    calc (s.step (SchedEvent.finish pid')).activeCount pid
        ≤ s.activeCount pid :=
          List.Sublist.length_le
            (List.Sublist.filter _ (List.filter_sublist s.active))
      _ ≤ 1 := h pid

/-- The invariant holds in every scheduler state reachable from startup. -/
theorem schedRun_inv (events : List SchedEvent) :
    SchedInv (SchedulerState.run events) := by
  suffices hgen : ∀ (l : List SchedEvent) (s : SchedulerState), SchedInv s →
      SchedInv (l.foldl SchedulerState.step s) by
    exact hgen events SchedulerState.init (fun _ => Nat.zero_le 1)
  intro l
  induction l with
  | nil => intro s h; exact h
  | cons e t ih => intro s h; exact ih (s.step e) (schedStep_preserves s e h)

/-- C2: after any linearized sequence of start/finish requests, every project
    has at most one active GenerationJob, and a `start` for a project with an
    active job returns `AlreadyRunning` and leaves the scheduler unchanged —
    no second job is spawned. -/
theorem scheduler_one_job_per_project (events : List SchedEvent) (pid : String) :
    (SchedulerState.run events).activeCount pid ≤ 1 ∧
    ((SchedulerState.run events).isActive pid = true →
      ((SchedulerState.run events).start pid).fst = StartOutcome.alreadyRunning ∧
      ((SchedulerState.run events).start pid).snd = SchedulerState.run events) := by
  refine ⟨schedRun_inv events pid, fun hact => ?_⟩
  unfold SchedulerState.start
  rw [if_pos hact]
  exact ⟨rfl, rfl⟩

/-- C2 witness: after starting projects "p" and "q", project "p" has one
    active job and a duplicate start on "p" is rejected with
    `AlreadyRunning`, leaving the state unchanged. -/
theorem scheduler_one_job_per_project_witness :
    (SchedulerState.run [SchedEvent.start "p", SchedEvent.start "q"]).activeCount
      "p" ≤ 1 ∧
    (((SchedulerState.run [SchedEvent.start "p", SchedEvent.start "q"]).start
        "p").fst = StartOutcome.alreadyRunning ∧
      ((SchedulerState.run [SchedEvent.start "p", SchedEvent.start "q"]).start
        "p").snd = SchedulerState.run [SchedEvent.start "p", SchedEvent.start "q"]) :=
  ⟨(scheduler_one_job_per_project [SchedEvent.start "p", SchedEvent.start "q"]
      "p").1,
   (scheduler_one_job_per_project [SchedEvent.start "p", SchedEvent.start "q"]
      "p").2 rfl⟩

/-- The gate only asks for a regeneration while attempts remain below the
    configured maximum. -/
theorem gateDecide_regenerate_lt (v : QualityVerdict) (p : ThresholdPolicy)
    (attempts maxRetries : ℕ)
    (h : gateDecide v p attempts maxRetries = .regenerate) :
    attempts < maxRetries := by
  unfold gateDecide at h
  by_cases hp : passesPolicy v p = true
  · rw [if_pos hp] at h
    exact absurd h (by simp)
  · rw [if_neg hp] at h
    by_cases hm : maxRetries ≤ attempts
    · rw [if_pos hm] at h
      exact absurd h (by simp)
    · omega

/-- A rejected verdict is escalated once the attempt count has reached the
    configured maximum. -/
theorem gateDecide_escalate_of_reject (v : QualityVerdict) (p : ThresholdPolicy)
    (attempts maxRetries : ℕ)
    (hrej : passesPolicy v p = false) (hm : maxRetries ≤ attempts) :
    gateDecide v p attempts maxRetries = .escalate := by
  unfold gateDecide
  rw [hrej, if_pos hm]
  simp

/-- One chapter-machine transition keeps the attempt count within the
    configured maximum. -/
theorem chapterStep_attempts_le (cfg : ChapterConfig) (c : ChapterRecord)
    (e : ChapterEvent) (hmax : 1 ≤ cfg.maxRetries)
    (h : c.attempts ≤ cfg.maxRetries) :
    (chapterStep cfg c e).attempts ≤ cfg.maxRetries := by
  obtain ⟨st, att⟩ := c
  dsimp only at h
  cases e with
  | startGen =>
    cases st <;> simp only [chapterStep] <;> first | exact hmax | exact h
  | draftReady =>
    cases st <;> simp only [chapterStep] <;> exact h
  | evaluated v =>
    cases st <;> simp only [chapterStep] <;> try exact h
    cases hg : gateDecide v cfg.policy att cfg.maxRetries with
    | accept => simp only [hg]; exact h
    | regenerate =>
      simp only [hg]
      have := gateDecide_regenerate_lt v cfg.policy att cfg.maxRetries hg
      omega
    | escalate => simp only [hg]; exact h
  | retry =>
    cases st <;> simp only [chapterStep] <;> exact h
  | fatalError =>
    cases st <;> simp only [chapterStep] <;> exact h

/-- The attempt bound holds in every chapter state reachable from `init`. -/
theorem chapterRun_attempts_le (cfg : ChapterConfig)
    (events : List ChapterEvent) (hmax : 1 ≤ cfg.maxRetries) :
    (chapterRun cfg events).attempts ≤ cfg.maxRetries := by
  suffices hgen : ∀ (l : List ChapterEvent) (c : ChapterRecord),
      c.attempts ≤ cfg.maxRetries →
      (l.foldl (chapterStep cfg) c).attempts ≤ cfg.maxRetries by
    exact hgen events ChapterRecord.init (Nat.zero_le _)
  intro l
  induction l with
  | nil => intro c h; exact h
  | cons e t ih =>
    intro c h
    exact ih (chapterStep cfg c e) (chapterStep_attempts_le cfg c e hmax h)

/-- A gate escalation in `Evaluating` sends the chapter to `Failed`. -/
theorem chapterStep_escalate_failed (cfg : ChapterConfig) (c : ChapterRecord)
    (v : QualityVerdict) (hst : c.state = .evaluating)
    (hg : gateDecide v cfg.policy c.attempts cfg.maxRetries = .escalate) :
    (chapterStep cfg c (.evaluated v)).state = .failed := by
  obtain ⟨st, att⟩ := c
  dsimp only at hst hg
  subst hst
  simp only [chapterStep, hg]

/-- C3: with a positive retry limit, along every event run the chapter's
    attempt count stays at most max-retries (so in particular at the moment
    a terminal state is reached), and once the attempt count has reached the
    maximum any further rejected verdict makes the gate return `escalate`
    and the chapter transition to `Failed` — it is not silently dropped. -/
theorem chapter_attempts_bounded (cfg : ChapterConfig)
    (events : List ChapterEvent) (hmax : 1 ≤ cfg.maxRetries) :
    (chapterRun cfg events).attempts ≤ cfg.maxRetries ∧
    ((chapterRun cfg events).state.isTerminal = true →
      (chapterRun cfg events).attempts ≤ cfg.maxRetries) ∧
    (∀ v, passesPolicy v cfg.policy = false →
      cfg.maxRetries ≤ (chapterRun cfg events).attempts →
      gateDecide v cfg.policy (chapterRun cfg events).attempts cfg.maxRetries
        = .escalate ∧
      ((chapterRun cfg events).state = .evaluating →
        (chapterStep cfg (chapterRun cfg events) (.evaluated v)).state
          = .failed)) := by
  have hle := chapterRun_attempts_le cfg events hmax
  refine ⟨hle, fun _ => hle, fun v hrej hm => ?_⟩
  have hg := gateDecide_escalate_of_reject v cfg.policy
    (chapterRun cfg events).attempts cfg.maxRetries hrej hm
  exact ⟨hg, fun hst => chapterStep_escalate_failed cfg _ v hst hg⟩

/-- C3 witness: with max-retries 3 and three consecutively rejected drafts,
    the chapter sits in `Evaluating` at attempt 3 ≤ 3, and the third
    rejection escalates and fails the chapter. -/
theorem chapter_attempts_bounded_witness :
    (chapterRun sampleChapterConfig sampleChapterEvents).attempts ≤ 3 ∧
    gateDecide sampleBadVerdict samplePolicy
      (chapterRun sampleChapterConfig sampleChapterEvents).attempts 3
      = .escalate ∧
    (chapterStep sampleChapterConfig
      (chapterRun sampleChapterConfig sampleChapterEvents)
      (.evaluated sampleBadVerdict)).state = .failed := by
  have h := chapter_attempts_bounded sampleChapterConfig sampleChapterEvents
    (by decide)
  have h3 := h.2.2 sampleBadVerdict (by decide) (by decide)
  exact ⟨h.1, h3.1, h3.2 (by decide)⟩

/-- Membership in the orchestrator's started-chapter list: chapter `j` is
    started exactly when it lies in the planned window and every chapter
    before it was accepted. -/
theorem mem_orchLoop (outcome : ℕ → ChapterOutcome) (r i j : ℕ) :
    j ∈ (orchLoop outcome r i).started ↔
    i ≤ j ∧ j < i + r ∧ ∀ m, i ≤ m → m < j → outcome m = .accepted := by
  induction r generalizing i with
  | zero =>
    simp only [orchLoop, List.not_mem_nil, false_iff]
    rintro ⟨h1, h2, -⟩
    omega
  | succ r ih =>
    cases ho : outcome i with
    | accepted =>
      simp only [orchLoop, ho, List.mem_cons]
      rw [ih (i + 1)]
      constructor
      · rintro (rfl | ⟨h1, h2, h3⟩)
        · exact ⟨Nat.le_refl _, by omega,
            fun m hm1 hm2 => (Nat.lt_irrefl j (Nat.lt_of_le_of_lt hm1 hm2)).elim⟩
        · refine ⟨by omega, by omega, fun m hm1 hm2 => ?_⟩
          rcases Nat.eq_or_lt_of_le hm1 with rfl | hlt
          · exact ho
          · exact h3 m hlt hm2
      · rintro ⟨h1, h2, h3⟩
        rcases Nat.eq_or_lt_of_le h1 with rfl | hlt
        · exact Or.inl rfl
        · exact Or.inr ⟨hlt, by omega, fun m hm1 hm2 => h3 m (by omega) hm2⟩
    | failed =>
      simp only [orchLoop, ho, List.mem_singleton]
      constructor
      · rintro rfl
        exact ⟨Nat.le_refl _, by omega,
          fun m hm1 hm2 => (Nat.lt_irrefl j (Nat.lt_of_le_of_lt hm1 hm2)).elim⟩
      · rintro ⟨h1, h2, h3⟩
        rcases Nat.eq_or_lt_of_le h1 with rfl | hlt
        · rfl
        · have hacc := h3 i (Nat.le_refl _) hlt
          rw [ho] at hacc
          cases hacc

/-- The run completes exactly when every planned chapter is accepted. -/
theorem orchLoop_status_completed (outcome : ℕ → ChapterOutcome) (r i : ℕ) :
    (orchLoop outcome r i).status = .completed ↔
    ∀ m, i ≤ m → m < i + r → outcome m = .accepted := by
  induction r generalizing i with
  | zero =>
    refine ⟨fun _ m hm1 hm2 => ?_, fun _ => rfl⟩
    omega
  | succ r ih =>
    cases ho : outcome i with
    | accepted =>
      simp only [orchLoop, ho]
      rw [ih (i + 1)]
      constructor
      · intro h m hm1 hm2
        rcases Nat.eq_or_lt_of_le hm1 with rfl | hlt
        · exact ho
        · exact h m hlt (by omega)
      · intro h m hm1 hm2
        exact h m (by omega) (by omega)
    | failed =>
      simp only [orchLoop, ho]
      constructor
      · intro h; cases h
      · intro h
        have hacc := h i (Nat.le_refl _) (by omega)
        rw [ho] at hacc
        cases hacc

/-- C4: in a sequential-mode run, chapter n+1 is started only when chapter n
    was started and accepted; and if a started chapter fails, the project
    status is failed and no later chapter is ever started. -/
theorem orchestrator_sequential (outcome : ℕ → ChapterOutcome) (total : ℕ) :
    (∀ j, (j + 1) ∈ (orchRun outcome total).started →
      j ∈ (orchRun outcome total).started ∧ outcome j = .accepted) ∧
    (∀ j, j ∈ (orchRun outcome total).started → outcome j = .failed →
      (orchRun outcome total).status = .failed ∧
      ∀ k, k ∈ (orchRun outcome total).started → k ≤ j) := by
  constructor
  · intro j hj
    rw [orchRun, mem_orchLoop] at hj
    obtain ⟨h1, h2, h3⟩ := hj
    constructor
    · rw [orchRun, mem_orchLoop]
      exact ⟨by omega, by omega, fun m hm1 hm2 => h3 m hm1 (by omega)⟩
    · exact h3 j (by omega) (by omega)
  · intro j hj hfail
    rw [orchRun, mem_orchLoop] at hj
    obtain ⟨h1, h2, h3⟩ := hj
    constructor
    · cases hs : (orchRun outcome total).status with
      | failed => rfl
      | completed =>
        rw [orchRun, orchLoop_status_completed] at hs
        have hacc := hs j (by omega) (by omega)
        rw [hfail] at hacc
        cases hacc
    · intro k hk
      rw [orchRun, mem_orchLoop] at hk
      obtain ⟨k1, k2, k3⟩ := hk
      by_contra hgt
      push_neg at hgt
      have hacc := k3 j (by omega) hgt
      rw [hfail] at hacc
      cases hacc

/-- C4 witness: with chapter 1 failing out of 4 planned chapters, the run
    ends failed, chapter 0 was started and accepted before chapter 1, and no
    chapter beyond index 1 was started. -/
theorem orchestrator_sequential_witness :
    (orchRun sampleOutcome 4).status = RunStatus.failed ∧
    0 ∈ (orchRun sampleOutcome 4).started ∧
    sampleOutcome 0 = ChapterOutcome.accepted := by
  have h2 := (orchestrator_sequential sampleOutcome 4).2 1 (by decide) (by decide)
  have h1 := (orchestrator_sequential sampleOutcome 4).1 0 (by decide)
  exact ⟨h2.1, h1.1, h1.2⟩

end GoodTxt
